import Mathlib

/-!
Verification of the quality-control (QC) engine of the iniamet library
(`src/iniamet/qc.py`), against its natural-language specification.

The QC engine operates on pandas DataFrames holding one time series of
(timestamp, value) readings.  We embed a series as a `List (ℚ × ℚ)` of
(time-in-hours, value) pairs, and each vectorized pandas computation as the
corresponding list transformation.  Values and times are rationals: the
claims under study never depend on float-specific behaviour (NaN inputs are
out of scope of the formalised statements; where the source manufactures
NaNs itself - the first element of `Series.diff()`, division by a zero time
step - we model them with `Option`, mirroring that every comparison against
NaN in pandas yields `False`).

Each `detect_*` method of `QualityControl` adds one boolean flag column;
we embed it as a function returning the list of flags, aligned with the
input series.  `apply_all_checks` returns the annotated series (`QCRow`).

A second, heap-passing embedding near the end of the file models the
DataFrame *objects* (column stores addressed by references), so that the
no-mutation claim C10 about `df.copy()` can be stated faithfully.

Rational arithmetic in Batteries is marked irreducible, which blocks the
elaborator-side evaluation performed by `decide` on concrete witnesses;
the kernel itself evaluates it fine.  We restore semireducibility so that
concrete runs of the embedded checks can be settled by `decide`.
-/

set_option allowUnsafeReducibility true
attribute [semireducible] Rat.add Rat.sub Rat.mul Rat.div Rat.inv Rat.blt
  Rat.ofScientific

/-- One reading annotated with the five QC flag columns added by
`apply_all_checks`, plus the derived `qc_passed` column. -/
structure QCRow where
  tiempo : ℚ
  valor : ℚ
  qc_impossible : Bool
  qc_extreme : Bool
  qc_stuck : Bool
  qc_sudden : Bool
  qc_zeros : Bool
  qc_passed : Bool
deriving Repr, DecidableEq

/-- The summary dictionary returned by `QualityControl.get_qc_summary`. -/
structure QCSummary where
  total : ℕ
  passed : ℕ
  impossible : ℕ
  extreme : ℕ
  stuck : ℕ
  sudden : ℕ
  zeros : ℕ
deriving Repr, DecidableEq

/-- Errors the embedded Python code can raise.  `keyError` models a pandas
`KeyError` from reading a column that does not exist; `invalidParameter`
models the explicit invalid-parameter error the specification postulates
(no such error class exists anywhere in the repository). -/
inductive PyError where
  | keyError (key : String)
  | invalidParameter (msg : String)
deriving Repr, DecidableEq

/-- Tests whether `pat` occurs as a contiguous sub-list of `l` (Python `pat in s` on the
character level). -/
def charsContains (l pat : List Char) : Bool :=
  match l with
  | [] => pat.isEmpty
  | _ :: rest => pat.isPrefixOf l || charsContains rest pat

/-- Python `str.strip()` on the character level: drop leading and trailing
whitespace. -/
def trimChars (l : List Char) : List Char :=
  ((l.dropWhile Char.isWhitespace).reverse.dropWhile Char.isWhitespace).reverse

/-- Embeds `QualityControl._normalize_variable_name` (qc.py lines 498-517):
lower-case, strip, then map common variations onto canonical kind names.
Implemented over the character list (Python `lower`/`strip`/`in`; the
variable names in play are ASCII, where `Char.toLower` agrees with
Python's `lower`). -/
def _normalize_variable_name (name : String) : String :=
  let n := trimChars (name.data.map Char.toLower)
  if charsContains n "temp".data then "temperatura"
  else if charsContains n "hum".data then "humedad"
  else if charsContains n "prec".data || charsContains n "lluv".data then
    "precipitacion"
  else if charsContains n "vient".data then "viento"
  else if charsContains n "radia".data then "radiacion"
  else if charsContains n "presion".data then "presion"
  else String.mk n

/-- The `PHYSICAL_RANGES` table (qc.py lines 16-41), as a partial map; the
Python code reads it with `.get(var_key, unbounded)`, so `none` stands for
the unbounded default range (-inf, inf), which never flags. -/
def PHYSICAL_RANGES : String → Option (ℚ × ℚ)
  | "temperatura" => some (-50, 60)
  | "temperatura_aire" => some (-50, 60)
  | "temp" => some (-50, 60)
  | "humedad" => some (0, 100)
  | "humedad_relativa" => some (0, 100)
  | "precipitacion" => some (0, 500)
  | "lluvia" => some (0, 500)
  | "viento" => some (0, 100)
  | "velocidad_viento" => some (0, 100)
  | "radiacion" => some (0, 1500)
  | "radiacion_solar" => some (0, 1500)
  | "presion" => some (800, 1100)
  | "presion_atmosferica" => some (800, 1100)
  | _ => none

/-- The `EXPECTED_RANGES` table (qc.py lines 44-52).  Note: no entry for
`presion`. -/
def EXPECTED_RANGES : String → Option (ℚ × ℚ)
  | "temperatura" => some (-10, 40)
  | "temperatura_aire" => some (-10, 40)
  | "humedad" => some (5, 100)
  | "humedad_relativa" => some (5, 100)
  | "precipitacion" => some (0, 200)
  | "viento" => some (0, 50)
  | "radiacion" => some (0, 1200)
  | _ => none

/-- Embeds `detect_impossible_values` (qc.py lines 71-112): flag values outside the
physical range of the (normalized) variable kind; unknown kinds get the
unbounded default and never flag. -/
def impossible_flags (vals : List ℚ) (variable_name : String) : List Bool :=
  let r := PHYSICAL_RANGES ( _normalize_variable_name variable_name)
  vals.map (fun v =>
    match r with
    | some (lo, hi) => decide (v < lo) || decide (v > hi)
    | none => false)

/-- The `method == 'range'` branch of `detect_extreme_values` (qc.py lines
139-147): flag values outside the expected range of the (normalized)
variable kind; kinds absent from `EXPECTED_RANGES` never flag. -/
def extreme_range_flags (vals : List ℚ) (variable_name : String) : List Bool :=
  let r := EXPECTED_RANGES ( _normalize_variable_name variable_name)
  vals.map (fun v =>
    match r with
    | some (lo, hi) => decide (v < lo) || decide (v > hi)
    | none => false)

/-- Embeds `Series.quantile` with the default linear interpolation, used by the
`iqr` branch of `detect_extreme_values`; `none` models the NaN returned on
an empty series. -/
def pdQuantile (vals : List ℚ) (q : ℚ) : Option ℚ :=
  if vals.length = 0 then none
  else
    let s := vals.insertionSort (· ≤ ·)
    let n := s.length
    let pos : ℚ := q * ((n : ℚ) - 1)
    let i : ℕ := (Int.floor pos).toNat
    let frac : ℚ := pos - (i : ℚ)
    if i + 1 < n then some (s.getD i 0 + frac * (s.getD (i + 1) 0 - s.getD i 0))
    else some (s.getD i 0)

/-- The `method == 'iqr'` branch of `detect_extreme_values` (qc.py lines
149-158). -/
def iqr_flags (vals : List ℚ) : List Bool :=
  match pdQuantile vals (1/4), pdQuantile vals (3/4) with
  | some q1, some q3 =>
    let iqr := q3 - q1
    vals.map (fun v => decide (v < q1 - 3 * iqr) || decide (v > q3 + 3 * iqr))
  | _, _ => vals.map (fun _ => false)

/-- Embeds `detect_extreme_values` (qc.py lines 114-164).  With a method other
than `range` or `iqr` no branch assigns the `qc_extreme` column, and the
unconditional `df['qc_extreme'].sum()` on line 160 then raises a pandas
`KeyError` for the missing column. -/
def detect_extreme_values (vals : List ℚ) (variable_name : String)
    (method : String) : Except PyError (List Bool) :=
  if method = "range" then .ok (extreme_range_flags vals variable_name)
  else if method = "iqr" then .ok (iqr_flags vals)
  else .error (.keyError "qc_extreme")

/-- The consecutive differences of a list: entry `i` is `l[i] - l[i-1]`.
Models the tail of `Series.diff()` (which has length `l.length` with a
leading NaN; see `diffs`). -/
def pairDiffs (l : List ℚ) : List ℚ :=
  List.zipWith (fun a b => b - a) l l.tail

/-- Embeds `Series.diff()`: same length as the input, `none` (NaN) in position 0,
`l[i] - l[i-1]` in position `i ≥ 1`. -/
def diffs (l : List ℚ) : List (Option ℚ) :=
  match l with
  | [] => []
  | _ :: _ => none :: (pairDiffs l).map some

/-- The `is_same` series of `detect_stuck_sensor` (qc.py lines 198-199):
`df[value_col].diff().abs() <= tolerance`, with the leading NaN comparing
as not-same. -/
def same_flags (vals : List ℚ) (tolerance : ℚ) : List Bool :=
  (diffs vals).map (fun d =>
    match d with
    | some d => decide (|d| ≤ tolerance)
    | none => false)

/-- The pandas idiom `(b != b.shift()).cumsum()` (qc.py lines 202 and 323):
maximal constant blocks of `b` get consecutive group ids starting at 1 (the
first comparison against the shifted-in NaN is always `True`).  Auxiliary
recursion carrying the previous element and the running id. -/
def groupIdsGo (prev : Bool) (g : ℕ) : List Bool → List ℕ
  | [] => []
  | b :: rest =>
    let g2 := if b = prev then g else g + 1
    g2 :: groupIdsGo b g2 rest

/-- Group ids of the maximal constant blocks of a boolean series; see
`groupIdsGo`. -/
def groupIds : List Bool → List ℕ
  | [] => []
  | b :: rest => 1 :: groupIdsGo b 1 rest

/-- The pandas idiom `b.groupby(groups).transform('sum')` on a boolean
series `b` (qc.py lines 203 and 324): position `i` receives the number of
`true` entries in the group of `i`. -/
def repeat_counts (b : List Bool) : List ℕ :=
  let gs := groupIds b
  (List.range b.length).map (fun i =>
    ((List.range b.length).filter
      (fun j => decide (gs[j]? = gs[i]?) && b.getD j false)).length)

/-- Embeds `detect_stuck_sensor` (qc.py lines 166-212): flag position `i` iff its
diff from the previous value is within `tolerance` and the run of such
positions it belongs to has at least `min_repeats - 1` members. -/
def detect_stuck_sensor (vals : List ℚ) (min_repeats : ℕ) (tolerance : ℚ) :
    List Bool :=
  if vals.length < min_repeats then vals.map (fun _ => false)
  else
    let is_same := same_flags vals tolerance
    let counts := repeat_counts is_same
    List.zipWith (fun s (c : ℕ) => s && decide ((min_repeats : ℤ) - 1 ≤ (c : ℤ)))
      is_same counts

/-- Embeds `detect_consecutive_zeros` (qc.py lines 292-333): flag position `i` iff
its value is zero and it belongs to a run of at least `min_zeros`
consecutive zeros. -/
def detect_consecutive_zeros (vals : List ℚ) (min_zeros : ℕ) : List Bool :=
  if vals.length < min_zeros then vals.map (fun _ => false)
  else
    let is_zero := vals.map (fun v => decide (v = 0))
    let counts := repeat_counts is_zero
    List.zipWith (fun z c => z && decide (min_zeros ≤ c)) is_zero counts

/-- Embeds `Series.median()` with NaN result (`none`) on an empty series; pandas
sorts and takes the middle element, or the mean of the two middle ones. -/
def listMedian (l : List ℚ) : Option ℚ :=
  if l.length = 0 then none
  else
    let s := l.insertionSort (· ≤ ·)
    let n := s.length
    if n % 2 = 1 then some (s.getD (n / 2) 0)
    else some ((s.getD (n / 2 - 1) 0 + s.getD (n / 2) 0) / 2)

/-- The per-kind rate-of-change table of `detect_sudden_changes` for
non-temperature kinds (qc.py lines 269-274). -/
def SUDDEN_THRESHOLDS : String → Option ℚ
  | "humedad" => some 45
  | "presion" => some 10
  | "radiacion" => some 555
  | "viento" => some 10
  | _ => none

/-- Threshold selection of `detect_sudden_changes` (qc.py lines 258-275):
a caller-supplied threshold wins; otherwise temperature picks 4 or 10
depending on the median sampling interval (NaN median, impossible after the
length guard, compares false and yields 10 like in pandas), and other kinds
use `SUDDEN_THRESHOLDS` with default 999. -/
def sudden_threshold (rows : List (ℚ × ℚ)) (variable_name : String)
    (max_change_per_hour : Option ℚ) : ℚ :=
  match max_change_per_hour with
  | some m => m
  | none =>
    let var_key := _normalize_variable_name variable_name
    if var_key = "temperatura" then
      match listMedian (pairDiffs (rows.map Prod.fst)) with
      | some med => if med ≤ 1/2 then 4 else 10
      | none => 10
    else (SUDDEN_THRESHOLDS var_key).getD 999

/-- Embeds `detect_sudden_changes` (qc.py lines 214-290).  Works on the rows in
their given order (the function never sorts): `time_diff` and `value_diff`
are consecutive-row differences, `change_rate` is `|dv| / dt` with a zero
`dt` replaced by NaN (`none`), and a row is flagged iff its rate exceeds
the threshold and its time gap is at most 2 hours.  Comparisons against
NaN are false. -/
def detect_sudden_changes (rows : List (ℚ × ℚ)) (variable_name : String)
    (max_change_per_hour : Option ℚ) : List Bool :=
  if rows.length < 2 then rows.map (fun _ => false)
  else
    let thr := sudden_threshold rows variable_name max_change_per_hour
    let time_diff := diffs (rows.map Prod.fst)
    let value_diff := (diffs (rows.map Prod.snd)).map (Option.map (fun d => |d|))
    let change_rate := List.zipWith (fun dv dt =>
      match dv, dt with
      | some dv, some dt => if dt = 0 then none else some (dv / dt)
      | _, _ => (none : Option ℚ)) value_diff time_diff
    List.zipWith (fun r dt =>
      match r, dt with
      | some r, some dt => decide (thr < r) && decide (dt ≤ 2)
      | _, _ => false) change_rate time_diff

/-- Zips the series with the five flag columns into annotated rows, setting
`qc_passed` to the NOR of the five flags (qc.py lines 452-459). -/
def mkRows : List (ℚ × ℚ) → List Bool → List Bool → List Bool → List Bool →
    List Bool → List QCRow
  | p :: tl, a :: l1, b :: l2, c :: l3, d :: l4, e :: l5 =>
    { tiempo := p.1, valor := p.2, qc_impossible := a, qc_extreme := b,
      qc_stuck := c, qc_sudden := d, qc_zeros := e,
      qc_passed := !(a || b || c || d || e) } :: mkRows tl l1 l2 l3 l4 l5
  | _, _, _, _, _, _ => []

/-- Embeds `apply_all_checks` (qc.py lines 420-468): runs the five checks with
their default parameters (`method='range'`, `min_repeats=4`,
`tolerance=0.001`, `min_zeros=10`, auto threshold) and derives
`qc_passed`.  The `range` method never fails, so the `Except` of
`detect_extreme_values` is unwrapped with `[]` on the impossible error
branch. -/
def apply_all_checks (rows : List (ℚ × ℚ)) (variable_name : String) :
    List QCRow :=
  let vals := rows.map Prod.snd
  let imp := impossible_flags vals variable_name
  let ext := match detect_extreme_values vals variable_name "range" with
    | .ok l => l
    | .error _ => []
  let stk := detect_stuck_sensor vals 4 (1/1000)
  let sud := detect_sudden_changes rows variable_name none
  let zer := detect_consecutive_zeros vals 10
  mkRows rows imp ext stk sud zer

/-- Embeds `get_qc_summary` (qc.py lines 470-496): counts of each flag over an
annotated series (every annotated row carries all columns, so the
column-missing fallbacks of the Python code do not arise). -/
def get_qc_summary (rows : List QCRow) : QCSummary :=
  { total := rows.length
    passed := (rows.filter (fun r => r.qc_passed)).length
    impossible := (rows.filter (fun r => r.qc_impossible)).length
    extreme := (rows.filter (fun r => r.qc_extreme)).length
    stuck := (rows.filter (fun r => r.qc_stuck)).length
    sudden := (rows.filter (fun r => r.qc_sudden)).length
    zeros := (rows.filter (fun r => r.qc_zeros)).length }

/-- Sorting a series by timestamp (what the specification prescribes before
temporal checks; the source never does this inside the QC engine). -/
def sortByTime (rows : List (ℚ × ℚ)) : List (ℚ × ℚ) :=
  rows.insertionSort (fun a b => a.1 ≤ b.1)

/-! ## Shared indexing lemmas for the difference pipelines -/

theorem pairDiffs_getElem? (l : List ℚ) (i : ℕ) (a b : ℚ)
    (ha : l[i]? = some a) (hb : l[i+1]? = some b) :
    (pairDiffs l)[i]? = some (b - a) := by
  simp only [pairDiffs, List.getElem?_zipWith, List.getElem?_tail, ha, hb]

theorem diffs_length (l : List ℚ) : (diffs l).length = l.length := by
  cases l with
  | nil => rfl
  | cons x xs =>
    simp [diffs, pairDiffs, List.length_zipWith]

theorem diffs_getElem?_zero (l : List ℚ) (h : l ≠ []) :
    (diffs l)[0]? = some none := by
  cases l with
  | nil => exact absurd rfl h
  | cons x xs => simp [diffs]

theorem diffs_getElem?_succ (l : List ℚ) (i : ℕ) :
    (diffs l)[i+1]? = ((pairDiffs l)[i]?).map some := by
  cases l with
  | nil => simp [diffs, pairDiffs]
  | cons x xs => simp [diffs]

/-- Rows of `mkRows` always satisfy the NOR relation between `qc_passed`
and the five flags, by construction. -/
theorem mem_mkRows (rs : List (ℚ × ℚ)) :
    ∀ (l1 l2 l3 l4 l5 : List Bool) (r : QCRow),
      r ∈ mkRows rs l1 l2 l3 l4 l5 →
      r.qc_passed = !(r.qc_impossible || r.qc_extreme || r.qc_stuck ||
        r.qc_sudden || r.qc_zeros) := by
  induction rs with
  | nil => intro l1 l2 l3 l4 l5 r hr; rw [mkRows.eq_def] at hr; simp at hr
  | cons p tl ih =>
    intro l1 l2 l3 l4 l5 r hr
    cases l1 with
    | nil => rw [mkRows.eq_def] at hr; simp at hr
    | cons a m1 =>
      cases l2 with
      | nil => rw [mkRows.eq_def] at hr; simp at hr
      | cons b m2 =>
        cases l3 with
        | nil => rw [mkRows.eq_def] at hr; simp at hr
        | cons c m3 =>
          cases l4 with
          | nil => rw [mkRows.eq_def] at hr; simp at hr
          | cons d m4 =>
            cases l5 with
            | nil => rw [mkRows.eq_def] at hr; simp at hr
            | cons e m5 =>
              rw [mkRows] at hr
              rcases List.mem_cons.mp hr with h | h
              · subst h; rfl
              · exact ih m1 m2 m3 m4 m5 r h

/-! ## C5 -/

/-- C5: for every reading in the output of `apply_all_checks`, `qc_passed`
is exactly the NOR of the five flags `qc_impossible`, `qc_extreme`,
`qc_stuck`, `qc_sudden`, `qc_zeros`. -/
theorem C5_passed_is_nor (rows : List (ℚ × ℚ)) (name : String) (r : QCRow)
    (hr : r ∈ apply_all_checks rows name) :
    r.qc_passed = !(r.qc_impossible || r.qc_extreme || r.qc_stuck ||
      r.qc_sudden || r.qc_zeros) :=
  mem_mkRows _ _ _ _ _ _ r hr

/-- Witness for C5 at a concrete one-reading series. -/
theorem C5_witness :
    ({ tiempo := 0, valor := 15, qc_impossible := false, qc_extreme := false,
       qc_stuck := false, qc_sudden := false, qc_zeros := false,
       qc_passed := true } : QCRow) ∈
        apply_all_checks [((0:ℚ), (15:ℚ))] "temperatura" ∧
    ({ tiempo := 0, valor := 15, qc_impossible := false, qc_extreme := false,
       qc_stuck := false, qc_sudden := false, qc_zeros := false,
       qc_passed := true } : QCRow).qc_passed =
      !(false || false || false || false || false) :=
  ⟨by decide, C5_passed_is_nor [((0:ℚ), (15:ℚ))] "temperatura" _ (by decide)⟩

/-! ## C4 -/

/-- C4 (amended): calling `detect_extreme_values` with a method that is
neither `range` nor `iqr` surfaces an error synchronously, but it is a
pandas `KeyError` on the missing `qc_extreme` column (raised by the
unconditional flag count on qc.py line 160), not an explicit
`InvalidParameter` error. -/
theorem C4_unknown_method_keyerror (vals : List ℚ) (name method : String)
    (h1 : method ≠ "range") (h2 : method ≠ "iqr") :
    detect_extreme_values vals name method =
      Except.error (PyError.keyError "qc_extreme") := by
  unfold detect_extreme_values
  rw [if_neg h1, if_neg h2]

/-- Witness for C4 at a concrete invalid method. -/
theorem C4_witness :
    ("mean" ≠ "range") ∧ ("mean" ≠ "iqr") ∧
    detect_extreme_values [1] "temperatura" "mean" =
      Except.error (PyError.keyError "qc_extreme") :=
  ⟨by decide, by decide,
    C4_unknown_method_keyerror [1] "temperatura" "mean" (by decide) (by decide)⟩

/-- C4 counterexample: with the unknown method `mean` the error surfaced is
a `KeyError` for the `qc_extreme` column, not an `InvalidParameter` error
(no such error exists in the repository). -/
theorem C4_counterexample :
    detect_extreme_values [1] "temperatura" "mean" =
      Except.error (PyError.keyError "qc_extreme") := by
  simp [detect_extreme_values]

/-! ## C8 -/

/-- C8: with the default `range` method, for every variable kind with a
finite expected range a reading is flagged extreme exactly when it lies
strictly below the minimum or strictly above the maximum; values inside
the range, including the endpoints, are never flagged. -/
theorem C8_extreme_range_boundaries (name : String) (lo hi : ℚ)
    (hr : EXPECTED_RANGES ( _normalize_variable_name name) = some (lo, hi))
    (vals : List ℚ) (i : ℕ) (v : ℚ) (hv : vals[i]? = some v) :
    ((lo ≤ v ∧ v ≤ hi) → (extreme_range_flags vals name)[i]? = some false) ∧
    ((v < lo ∨ hi < v) → (extreme_range_flags vals name)[i]? = some true) := by
  have hflag : (extreme_range_flags vals name)[i]? =
      some (decide (v < lo) || decide (v > hi)) := by
    unfold extreme_range_flags
    rw [List.getElem?_map, hv, hr]
    rfl
  constructor
  · rintro ⟨hl, hh⟩
    rw [hflag]
    simp [not_lt.mpr hl, not_lt.mpr hh]
  · rintro (h | h) <;> rw [hflag] <;> simp [h]

/-- Witness for C8: temperature, expected range -10..40, value 15 inside,
and the two implications instantiated. -/
theorem C8_witness :
    EXPECTED_RANGES ( _normalize_variable_name "temperatura") =
      some (-10, 40) ∧
    ([(15:ℚ)][0]? = some 15) ∧
    ((((-10:ℚ) ≤ 15 ∧ (15:ℚ) ≤ 40) →
      (extreme_range_flags [15] "temperatura")[0]? = some false) ∧
     (((15:ℚ) < -10 ∨ (40:ℚ) < 15) →
      (extreme_range_flags [15] "temperatura")[0]? = some true)) :=
  ⟨by decide, by decide,
    C8_extreme_range_boundaries "temperatura" (-10) 40 (by decide) [15] 0 15
      (by decide)⟩

/-! ## C9 -/

/-- C9: on an empty series `apply_all_checks` returns the empty annotated
series and `get_qc_summary` of the result is all-zero; on a one-reading
series it returns one annotated row carrying the original timestamp and
value.  (All embedded checks are total functions: nothing raises.) -/
theorem C9_short_series (name : String) (t v : ℚ) :
    apply_all_checks [] name = [] ∧
    get_qc_summary (apply_all_checks [] name) =
      { total := 0, passed := 0, impossible := 0, extreme := 0, stuck := 0,
        sudden := 0, zeros := 0 } ∧
    (apply_all_checks [(t, v)] name).map (fun r => (r.tiempo, r.valor)) =
      [(t, v)] := by
  have hnil : apply_all_checks [] name = [] := by
    simp [apply_all_checks, impossible_flags, detect_extreme_values,
      extreme_range_flags, detect_stuck_sensor, detect_sudden_changes,
      detect_consecutive_zeros, mkRows]
  refine ⟨hnil, ?_, ?_⟩
  · rw [hnil]; rfl
  · simp [apply_all_checks, impossible_flags, detect_extreme_values,
      extreme_range_flags, detect_stuck_sensor, detect_sudden_changes,
      detect_consecutive_zeros, mkRows]

/-! ## C1 -/

/-- C1 counterexample: `detect_sudden_changes` does not sort.  On the
reversed two-reading temperature series the reading (1, 35) is not flagged,
while on the timestamp-sorted permutation it is flagged, so the flags
assigned to each (timestamp, value) reading differ from those of the
sorted view. -/
theorem C1_counterexample :
    detect_sudden_changes [((1:ℚ), (35:ℚ)), (0, 20)] "temperatura" none =
      [false, false] ∧
    detect_sudden_changes (sortByTime [((1:ℚ), (35:ℚ)), (0, 20)])
      "temperatura" none = [false, true] := by
  constructor <;> decide

/-- C1 (amended): the engine never sorts; elapsed hours and rates are
computed over the rows in their given order, so the `qc_sudden` flags
agree with those of the timestamp-sorted permutation exactly when the
series is already sorted by timestamp. -/
theorem C1_sorted_input (rows : List (ℚ × ℚ)) (name : String)
    (mc : Option ℚ)
    (hs : List.Sorted (fun a b : ℚ × ℚ => a.1 ≤ b.1) rows) :
    detect_sudden_changes rows name mc =
      detect_sudden_changes (sortByTime rows) name mc := by
  unfold sortByTime
  rw [List.Sorted.insertionSort_eq hs]

/-- Witness for C1 (amended) on an already-sorted series. -/
theorem C1_witness :
    List.Sorted (fun a b : ℚ × ℚ => a.1 ≤ b.1) [((0:ℚ), (20:ℚ)), (1, 35)] ∧
    detect_sudden_changes [((0:ℚ), (20:ℚ)), (1, 35)] "temperatura" none =
      detect_sudden_changes (sortByTime [((0:ℚ), (20:ℚ)), (1, 35)])
        "temperatura" none :=
  ⟨by decide, C1_sorted_input _ "temperatura" none (by decide)⟩

/-! ## C2 -/

/-- C2 counterexample: in the concrete stuck-sensor scenario the first
reading of the constant run is NOT flagged (its diff from a previous value
does not exist), contradicting the claim that all four readings are
flagged. -/
theorem C2_counterexample :
    ((apply_all_checks [((0:ℚ), (15:ℚ)), (1, 15), (2, 15), (3, 15)]
      "temperatura")[0]?).map QCRow.qc_stuck = some false := by decide

/-- C2 (amended): in the concrete scenario the stuck flags are
[false, true, true, true]: every reading of the run except its first is
flagged. -/
theorem C2_stuck_scenario :
    (apply_all_checks [((0:ℚ), (15:ℚ)), (1, 15), (2, 15), (3, 15)]
      "temperatura").map QCRow.qc_stuck = [false, true, true, true] := by
  decide

/-! ## C3 -/

/-- C3 counterexample: for the unrecognized kind `foo` the sudden-change
check does not degrade to never-flags: the default threshold is 999 and a
jump of 2000 in one hour is flagged. -/
theorem C3_counterexample :
    detect_sudden_changes [((0:ℚ), (0:ℚ)), (1, 2000)] "foo" none =
      [false, true] := by decide

/-- C3 (amended): for kinds absent from all three threshold tables (after
normalization), the impossible-values check and the range-method extreme
check never flag, while the sudden-change check falls back to the finite
threshold 999 (only rates above 999 per hour flag). -/
theorem C3_unknown_kind_thresholds (name : String) (vals : List ℚ)
    (rows : List (ℚ × ℚ))
    (h1 : PHYSICAL_RANGES ( _normalize_variable_name name) = none)
    (h2 : EXPECTED_RANGES ( _normalize_variable_name name) = none)
    (h3 : _normalize_variable_name name ≠ "temperatura")
    (h4 : SUDDEN_THRESHOLDS ( _normalize_variable_name name) = none) :
    impossible_flags vals name = vals.map (fun _ => false) ∧
    extreme_range_flags vals name = vals.map (fun _ => false) ∧
    sudden_threshold rows name none = 999 := by
  refine ⟨?_, ?_, ?_⟩
  · unfold impossible_flags; rw [h1]
  · unfold extreme_range_flags; rw [h2]
  · unfold sudden_threshold
    rw [if_neg h3, h4]
    rfl

/-- Witness for C3 (amended) at the concrete unknown kind `foo`. -/
theorem C3_witness :
    PHYSICAL_RANGES ( _normalize_variable_name "foo") = none ∧
    EXPECTED_RANGES ( _normalize_variable_name "foo") = none ∧
    _normalize_variable_name "foo" ≠ "temperatura" ∧
    SUDDEN_THRESHOLDS ( _normalize_variable_name "foo") = none ∧
    (impossible_flags [3] "foo" = [false] ∧
     extreme_range_flags [3] "foo" = [false] ∧
     sudden_threshold [((0:ℚ), (0:ℚ))] "foo" none = 999) :=
  ⟨by decide, by decide, by decide, by decide, by
    have h := C3_unknown_kind_thresholds "foo" [3] [((0:ℚ), (0:ℚ))]
      (by decide) (by decide) (by decide) (by decide)
    simpa using h⟩

/-! ## C6 -/

/-- The per-step flagging rule of the sudden-change check, stated directly
on one consecutive pair of readings (a direct rendering of the claim:
rate = |change in value| / elapsed hours, flagged iff the rate exceeds the
threshold and the gap is at most 2 hours, with a zero gap never
flaggable). -/
def suddenRateFlag (p c : ℚ × ℚ) (thr : ℚ) : Bool :=
  let dt := c.1 - p.1
  if dt = 0 then false
  else decide (thr < |c.2 - p.2| / dt) && decide (dt ≤ 2)

/-- C6: in `detect_sudden_changes` a reading is flagged iff its rate
|change| / elapsed-hours from the previous reading exceeds the active
threshold AND the elapsed gap is at most 2 hours; a gap above 2 hours is
never flagged regardless of rate, and a zero elapsed gap is treated as
non-flaggable instead of a division error.  (`suddenRateFlag` is exactly
that rule.) -/
theorem C6_sudden_flag_characterization (rows : List (ℚ × ℚ)) (name : String)
    (mc : Option ℚ) (i : ℕ) (p c : ℚ × ℚ)
    (hp : rows[i]? = some p) (hc : rows[i+1]? = some c) :
    (detect_sudden_changes rows name mc)[i+1]? =
      some (suddenRateFlag p c (sudden_threshold rows name mc)) := by
  have hlen : i + 1 < rows.length := by
    rcases List.getElem?_eq_some_iff.mp hc with ⟨h, _⟩
    exact h
  have h2 : ¬ rows.length < 2 := by omega
  have htp : (rows.map Prod.fst)[i]? = some p.1 := by
    rw [List.getElem?_map, hp]; rfl
  have htc : (rows.map Prod.fst)[i+1]? = some c.1 := by
    rw [List.getElem?_map, hc]; rfl
  have hvp : (rows.map Prod.snd)[i]? = some p.2 := by
    rw [List.getElem?_map, hp]; rfl
  have hvc : (rows.map Prod.snd)[i+1]? = some c.2 := by
    rw [List.getElem?_map, hc]; rfl
  have hdt : (diffs (rows.map Prod.fst))[i+1]? = some (some (c.1 - p.1)) := by
    rw [diffs_getElem?_succ, pairDiffs_getElem? _ _ _ _ htp htc]; rfl
  have hdv : (diffs (rows.map Prod.snd))[i+1]? = some (some (c.2 - p.2)) := by
    rw [diffs_getElem?_succ, pairDiffs_getElem? _ _ _ _ hvp hvc]; rfl
  simp only [detect_sudden_changes, if_neg h2, List.getElem?_zipWith,
    List.getElem?_map, hdt, hdv, Option.map_some']
  unfold suddenRateFlag
  by_cases hz : c.1 - p.1 = 0
  · simp [hz]
  · simp [hz]

/-- Witness for C6 at the concrete scenario: a 15-degree jump in one hour
against the hourly temperature threshold 10. -/
theorem C6_witness :
    ([((0:ℚ), (20:ℚ)), (1, 35)][0]? = some (0, 20)) ∧
    ([((0:ℚ), (20:ℚ)), (1, 35)][1]? = some (1, 35)) ∧
    (detect_sudden_changes [((0:ℚ), (20:ℚ)), (1, 35)] "temperatura" none)[1]? =
      some (suddenRateFlag (0, 20) (1, 35)
        (sudden_threshold [((0:ℚ), (20:ℚ)), (1, 35)] "temperatura" none)) :=
  ⟨rfl, rfl,
    C6_sudden_flag_characterization [((0:ℚ), (20:ℚ)), (1, 35)] "temperatura"
      none 0 (0, 20) (1, 35) rfl rfl⟩

/-! ## Group machinery for the persistence (stuck) and zero-run checks -/

theorem groupIdsGo_length (prev : Bool) (g : ℕ) (l : List Bool) :
    (groupIdsGo prev g l).length = l.length := by
  induction l generalizing prev g with
  | nil => rfl
  | cons b rest ih => simp [groupIdsGo, ih]

theorem groupIds_length (l : List Bool) : (groupIds l).length = l.length := by
  cases l with
  | nil => rfl
  | cons b rest => simp [groupIds, groupIdsGo_length]

theorem groupIdsGo_getElem?_zero (prev : Bool) (g : ℕ) (l : List Bool)
    (y : Bool) (hy : l[0]? = some y) :
    (groupIdsGo prev g l)[0]? = some (if y = prev then g else g + 1) := by
  cases l with
  | nil => simp at hy
  | cons b rest =>
    have hb : b = y := by simpa using hy
    subst hb
    simp [groupIdsGo]

theorem groupIdsGo_step (l : List Bool) :
    ∀ (prev : Bool) (g i : ℕ) (x y : Bool),
      l[i]? = some x → l[i+1]? = some y →
      ∃ gi, (groupIdsGo prev g l)[i]? = some gi ∧
        (groupIdsGo prev g l)[i+1]? = some (if y = x then gi else gi + 1) := by
  induction l with
  | nil => intro prev g i x y hx _; simp at hx
  | cons b rest ih =>
    intro prev g i x y hx hy
    cases i with
    | zero =>
      have hb : b = x := by simpa using hx
      subst hb
      have hy0 : rest[0]? = some y := by simpa using hy
      refine ⟨if b = prev then g else g + 1, by simp [groupIdsGo], ?_⟩
      simp only [groupIdsGo, List.getElem?_cons_succ]
      exact groupIdsGo_getElem?_zero b _ rest y hy0
    | succ j =>
      have hx2 : rest[j]? = some x := by simpa using hx
      have hy2 : rest[j+1]? = some y := by simpa using hy
      obtain ⟨gi, h1, h2⟩ := ih b (if b = prev then g else g + 1) j x y hx2 hy2
      refine ⟨gi, ?_, ?_⟩
      · simpa [groupIdsGo] using h1
      · simpa [groupIdsGo] using h2

theorem groupIds_step (l : List Bool) (i : ℕ) (x y : Bool)
    (hx : l[i]? = some x) (hy : l[i+1]? = some y) :
    ∃ gi, (groupIds l)[i]? = some gi ∧
      (groupIds l)[i+1]? = some (if y = x then gi else gi + 1) := by
  cases l with
  | nil => simp at hx
  | cons b rest =>
    cases i with
    | zero =>
      have hb : b = x := by simpa using hx
      subst hb
      have hy0 : rest[0]? = some y := by simpa using hy
      refine ⟨1, by simp [groupIds], ?_⟩
      simp only [groupIds, List.getElem?_cons_succ]
      exact groupIdsGo_getElem?_zero b 1 rest y hy0
    | succ j =>
      have hx2 : rest[j]? = some x := by simpa using hx
      have hy2 : rest[j+1]? = some y := by simpa using hy
      obtain ⟨gi, h1, h2⟩ := groupIdsGo_step rest b 1 j x y hx2 hy2
      refine ⟨gi, ?_, ?_⟩
      · simpa [groupIds] using h1
      · simpa [groupIds] using h2

theorem groupIds_adjacent (l : List Bool) (j gj gj1 : ℕ)
    (h1 : (groupIds l)[j]? = some gj)
    (h2 : (groupIds l)[j+1]? = some gj1) :
    gj ≤ gj1 ∧ gj1 ≤ gj + 1 := by
  have hlen : j + 1 < (groupIds l).length :=
    (List.getElem?_eq_some_iff.mp h2).1
  rw [groupIds_length] at hlen
  have hxj : j < l.length := by omega
  obtain ⟨x, hx⟩ : ∃ x, l[j]? = some x := ⟨l[j], by simp [hxj]⟩
  obtain ⟨y, hy⟩ : ∃ y, l[j+1]? = some y := ⟨l[j+1], by simp [hlen]⟩
  obtain ⟨gi, hgi, hgi1⟩ := groupIds_step l j x y hx hy
  rw [h1] at hgi
  injection hgi with e
  subst e
  rw [h2] at hgi1
  injection hgi1 with e
  by_cases hyx : y = x
  · rw [if_pos hyx] at e; omega
  · rw [if_neg hyx] at e; omega

theorem groupIds_change (l : List Bool) (j gj gj1 : ℕ) (x y : Bool)
    (hx : l[j]? = some x) (hy : l[j+1]? = some y) (hne : y ≠ x)
    (h1 : (groupIds l)[j]? = some gj)
    (h2 : (groupIds l)[j+1]? = some gj1) :
    gj1 = gj + 1 := by
  obtain ⟨gi, hgi, hgi1⟩ := groupIds_step l j x y hx hy
  rw [h1] at hgi
  injection hgi with e
  subst e
  rw [h2] at hgi1
  injection hgi1 with e
  rw [if_neg hne] at e
  omega

theorem groupIds_mono (l : List Bool) :
    ∀ (j i gi gj : ℕ), i ≤ j →
      (groupIds l)[i]? = some gi → (groupIds l)[j]? = some gj → gi ≤ gj := by
  intro j
  induction j with
  | zero =>
    intro i gi gj hij hi hj
    have h0 : i = 0 := Nat.le_zero.mp hij
    subst h0
    rw [hi] at hj
    injection hj with e
    omega
  | succ k ih =>
    intro i gi gj hij hi hj
    rcases Nat.lt_or_ge i (k+1) with h | h
    · have hk : k < (groupIds l).length := by
        have := (List.getElem?_eq_some_iff.mp hj).1
        omega
      have hgk : (groupIds l)[k]? = some ((groupIds l)[k]) := by simp [hk]
      have h1 := ih i gi _ (by omega) hi hgk
      have h2 := (groupIds_adjacent l k _ _ hgk hj).1
      omega
    · have he : i = k + 1 := le_antisymm hij h
      subst he
      rw [hi] at hj
      injection hj with e
      omega

theorem groupIds_const_of_const (l : List Bool) (v : Bool) :
    ∀ (k s : ℕ), (∀ m, s ≤ m → m ≤ s + k → l[m]? = some v) →
      ∀ gi, (groupIds l)[s]? = some gi → (groupIds l)[s + k]? = some gi := by
  intro k
  induction k with
  | zero => intro s _ gi hg; simpa using hg
  | succ n ih =>
    intro s hc gi hg
    have h1 : (groupIds l)[s + n]? = some gi :=
      ih s (fun m hm1 hm2 => hc m hm1 (by omega)) gi hg
    have hx : l[s + n]? = some v := hc (s + n) (by omega) (by omega)
    have hy : l[s + n + 1]? = some v := hc (s + n + 1) (by omega) (by omega)
    obtain ⟨gi2, hgi2, hgi2h⟩ := groupIds_step l (s + n) v v hx hy
    rw [h1] at hgi2
    injection hgi2 with e
    subst e
    have hnext : (groupIds l)[s + n + 1]? = some gi := by simpa using hgi2h
    have harith : s + (n + 1) = s + n + 1 := by omega
    rw [harith]
    exact hnext

theorem countP_range_interval (n s e : ℕ) :
    (List.range n).countP (fun j => decide (s ≤ j) && decide (j ≤ e)) =
      min (e + 1) n - min s n := by
  induction n with
  | zero => simp
  | succ m ih =>
    rw [List.range_succ, List.countP_append, ih, List.countP_cons,
      List.countP_nil]
    by_cases h1 : s ≤ m <;> by_cases h2 : m ≤ e <;> simp [h1, h2] <;> omega

theorem repeat_counts_getElem? (b : List Bool) (i : ℕ) (hi : i < b.length) :
    (repeat_counts b)[i]? = some ((List.range b.length).countP
      (fun j => decide ((groupIds b)[j]? = (groupIds b)[i]?) &&
        b.getD j false)) := by
  unfold repeat_counts
  rw [List.getElem?_map, List.getElem?_range hi]
  simp [List.countP_eq_length_filter]

theorem same_flags_length (vals : List ℚ) (tol : ℚ) :
    (same_flags vals tol).length = vals.length := by
  simp [same_flags, diffs_length]

theorem same_flags_getElem?_zero (vals : List ℚ) (tol : ℚ) (h : vals ≠ []) :
    (same_flags vals tol)[0]? = some false := by
  simp [same_flags, List.getElem?_map, diffs_getElem?_zero vals h]

theorem same_flags_getElem?_succ (vals : List ℚ) (tol : ℚ) (k : ℕ) (u w : ℚ)
    (hu : vals[k]? = some u) (hw : vals[k+1]? = some w) :
    (same_flags vals tol)[k+1]? = some (decide (|w - u| ≤ tol)) := by
  simp [same_flags, List.getElem?_map, diffs_getElem?_succ,
    pairDiffs_getElem? vals k u w hu hw]

theorem detect_stuck_getElem? (vals : List ℚ) (m : ℕ) (tol : ℚ) (k : ℕ)
    (hguard : ¬ vals.length < m) (bk : Bool) (ck : ℕ)
    (hb : (same_flags vals tol)[k]? = some bk)
    (hc : (repeat_counts (same_flags vals tol))[k]? = some ck) :
    (detect_stuck_sensor vals m tol)[k]? =
      some (bk && decide ((m : ℤ) - 1 ≤ (ck : ℤ))) := by
  simp only [detect_stuck_sensor, if_neg hguard, List.getElem?_zipWith, hb, hc]

/-- In a window s..e of all-`true` entries, every position's repeat count
is at least the window size. -/
theorem repeat_counts_lower (b : List Bool) (s e i : ℕ)
    (hse : s ≤ i) (hie : i ≤ e) (helen : e < b.length)
    (htrue : ∀ m, s ≤ m → m ≤ e → b[m]? = some true)
    (ci : ℕ) (hci : (repeat_counts b)[i]? = some ci) :
    e + 1 - s ≤ ci := by
  have hilen : i < b.length := by omega
  rw [repeat_counts_getElem? b i hilen] at hci
  injection hci with ee
  have hglen : (groupIds b).length = b.length := groupIds_length b
  have hslen : s < (groupIds b).length := by omega
  have hgs : (groupIds b)[s]? = some ((groupIds b)[s]) := by simp [hslen]
  have hgj : ∀ j, s ≤ j → j ≤ e → (groupIds b)[j]? = some ((groupIds b)[s]) := by
    intro j h1 h2
    have hc2 := groupIds_const_of_const b true (j - s) s
      (fun m hm1 hm2 => htrue m hm1 (by omega)) ((groupIds b)[s]) hgs
    have heq : s + (j - s) = j := by omega
    rw [heq] at hc2
    exact hc2
  have hmono : (List.range b.length).countP
      (fun j => decide (s ≤ j) && decide (j ≤ e)) ≤
      (List.range b.length).countP
      (fun j => decide ((groupIds b)[j]? = (groupIds b)[i]?) &&
        b.getD j false) := by
    apply List.countP_mono_left
    intro a ha hpa
    simp only [Bool.and_eq_true, decide_eq_true_eq] at hpa
    obtain ⟨h1, h2⟩ := hpa
    have hga : (groupIds b)[a]? = some ((groupIds b)[s]) := hgj a h1 h2
    have hgi : (groupIds b)[i]? = some ((groupIds b)[s]) := hgj i hse hie
    have hba : b[a]? = some true := htrue a h1 h2
    simp [hga, hgi, List.getD_eq_getElem?_getD, hba]
  rw [countP_range_interval] at hmono
  omega

/-- In a maximal window s..e of all-`true` entries (flanked by `false` or
the list ends), every position's repeat count is at most the window
size. -/
theorem repeat_counts_upper (b : List Bool) (s e i : ℕ)
    (hse : s ≤ i) (hie : i ≤ e) (helen : e < b.length)
    (htrue : ∀ m, s ≤ m → m ≤ e → b[m]? = some true)
    (hleft : s = 0 ∨ b[s-1]? = some false)
    (hright : e + 1 = b.length ∨ b[e+1]? = some false)
    (ci : ℕ) (hci : (repeat_counts b)[i]? = some ci) :
    ci ≤ e + 1 - s := by
  have hilen : i < b.length := by omega
  rw [repeat_counts_getElem? b i hilen] at hci
  injection hci with ee
  have hglen : (groupIds b).length = b.length := groupIds_length b
  have hslen : s < (groupIds b).length := by omega
  have hgs : (groupIds b)[s]? = some ((groupIds b)[s]) := by simp [hslen]
  have hgj : ∀ j, s ≤ j → j ≤ e → (groupIds b)[j]? = some ((groupIds b)[s]) := by
    intro j h1 h2
    have hc2 := groupIds_const_of_const b true (j - s) s
      (fun m hm1 hm2 => htrue m hm1 (by omega)) ((groupIds b)[s]) hgs
    have heq : s + (j - s) = j := by omega
    rw [heq] at hc2
    exact hc2
  have hmono : (List.range b.length).countP
      (fun j => decide ((groupIds b)[j]? = (groupIds b)[i]?) &&
        b.getD j false) ≤
      (List.range b.length).countP
      (fun j => decide (s ≤ j) && decide (j ≤ e)) := by
    apply List.countP_mono_left
    intro a ha hpa
    simp only [Bool.and_eq_true, decide_eq_true_eq] at hpa
    obtain ⟨h1, h2⟩ := hpa
    have halen : a < b.length := by
      simp only [List.mem_range] at ha
      exact ha
    have hgi : (groupIds b)[i]? = some ((groupIds b)[s]) := hgj i hse hie
    rw [hgi] at h1
    have hga : (groupIds b)[a]? = some ((groupIds b)[a]) := by
      have : a < (groupIds b).length := by omega
      simp [this]
    rw [hga] at h1
    injection h1 with h1v
    -- a carries the same group id as the window; show it lies inside
    by_contra hout
    simp only [Bool.and_eq_true, decide_eq_true_eq, not_and, not_le] at hout
    rcases Nat.lt_or_ge a s with hlt | hge
    · -- a strictly left of the window
      have hs1 : 1 ≤ s := by omega
      have hbl : b[s-1]? = some false := by
        rcases hleft with h0 | h0
        · omega
        · exact h0
      have hbs : b[s]? = some true := htrue s (by omega) (by omega)
      have hgs1 : (groupIds b)[s-1]? = some ((groupIds b)[s-1]) := by
        have : s - 1 < (groupIds b).length := by omega
        simp [this]
      have hchg : (groupIds b)[s]? = some ((groupIds b)[s]) := hgs
      have hstep : (groupIds b)[s] = (groupIds b)[s-1] + 1 := by
        have hb1 : b[s-1]? = some false := hbl
        have hb2 : b[(s-1)+1]? = some true := by
          have heq : s - 1 + 1 = s := by omega
          rw [heq]
          exact hbs
        have hg2 : (groupIds b)[(s-1)+1]? = some ((groupIds b)[s]) := by
          have heq : s - 1 + 1 = s := by omega
          rw [heq]
          exact hchg
        exact groupIds_change b (s-1) _ _ false true hb1 hb2
          (by simp) hgs1 hg2
      have hmon : (groupIds b)[a] ≤ (groupIds b)[s-1] := by
        apply groupIds_mono b (s-1) a _ _ (by omega) hga hgs1
      omega
    · -- a strictly right of the window
      have hae : e < a := by
        rcases Nat.lt_or_ge e a with h | h
        · exact h
        · omega
      have helen2 : e + 1 < b.length := by omega
      have hbr : b[e+1]? = some false := by
        rcases hright with h0 | h0
        · omega
        · exact h0
      have hbe : b[e]? = some true := htrue e (by omega) (by omega)
      have hge1 : (groupIds b)[e]? = some ((groupIds b)[s]) :=
        hgj e (by omega) (by omega)
      have hgel : e + 1 < (groupIds b).length := by omega
      have hge2 : (groupIds b)[e+1]? = some ((groupIds b)[e+1]) := by
        simp [hgel]
      have hstep : (groupIds b)[e+1] = (groupIds b)[s] + 1 :=
        groupIds_change b e _ _ true false hbe hbr (by simp) hge1 hge2
      have hmon : (groupIds b)[e+1] ≤ (groupIds b)[a] := by
        apply groupIds_mono b a (e+1) _ _ (by omega) hge2 hga
      omega
  rw [countP_range_interval] at hmono
  omega

theorem repeat_counts_length (b : List Bool) :
    (repeat_counts b).length = b.length := by
  simp [repeat_counts]

theorem detect_stuck_short (vals : List ℚ) (m : ℕ) (tol : ℚ)
    (h : vals.length < m) (i : ℕ) (hi : i < vals.length) :
    (detect_stuck_sensor vals m tol)[i]? = some false := by
  simp only [detect_stuck_sensor, if_pos h, List.getElem?_map]
  have hv : vals[i]? = some vals[i] := by simp [hi]
  rw [hv]
  rfl

/-! ## C7 -/

/-- C7 counterexample.  First conjunct: with tolerance 0.001 and values
climbing by 0.0005 per step, every maximal run of identical values is a
singleton (length 1 < min_repeats = 4), yet four readings are flagged
stuck - so a run shorter than `min_repeats` CAN contribute flags when the
tolerance is positive.  Second conjunct: with `min_repeats = 1` a
singleton run (N = 1 ≥ min_repeats) produces zero flags, not the claimed
`N - min_repeats + 1 = 1`. -/
theorem C7_counterexample :
    detect_stuck_sensor [(5:ℚ), 5 + 1/2000, 5 + 1/1000, 5 + 3/2000, 5 + 1/500]
      4 (1/1000) = [false, true, true, true, true] ∧
    detect_stuck_sensor [(5:ℚ)] 1 0 = [false] := by
  constructor <;> decide

/-- C7 (amended): for `min_repeats ≥ 2`, an exact-equality run of length N
embedded as `pre ++ replicate N x ++ post` with neighbours beyond the
tolerance behaves as claimed: (i) if `N ≥ min_repeats` every reading of
the run except its first is flagged (that is `N - 1 ≥ N - min_repeats + 1`
readings); (ii) with tolerance 0, a run with `N < min_repeats` contributes
no flags; (iii) a series shorter than `min_repeats` has no flags at
all. -/
theorem C7_stuck_run_flags (pre post : List ℚ) (x : ℚ) (N m : ℕ) (tol : ℚ)
    (hm : 2 ≤ m) (htol : 0 ≤ tol) (hN : 1 ≤ N)
    (hpre : ∀ y, pre.getLast? = some y → ¬ |x - y| ≤ tol)
    (hpost : ∀ y, post.head? = some y → ¬ |y - x| ≤ tol) :
    (m ≤ N →
      (∀ k, pre.length + 1 ≤ k → k ≤ pre.length + N - 1 →
        (detect_stuck_sensor (pre ++ (List.replicate N x ++ post)) m
          tol)[k]? = some true) ∧
      N - m + 1 ≤ N - 1) ∧
    (N < m → tol = 0 →
      ∀ k, pre.length ≤ k → k ≤ pre.length + N - 1 →
        (detect_stuck_sensor (pre ++ (List.replicate N x ++ post)) m
          tol)[k]? = some false) ∧
    (∀ (vals2 : List ℚ) (i : ℕ), vals2.length < m → i < vals2.length →
      (detect_stuck_sensor vals2 m tol)[i]? = some false) := by
  set vals := pre ++ (List.replicate N x ++ post) with hvals
  have hlen : vals.length = pre.length + N + post.length := by
    rw [hvals]
    simp [List.length_append, List.length_replicate]
    omega
  have hv_run : ∀ k, pre.length ≤ k → k ≤ pre.length + N - 1 →
      vals[k]? = some x := by
    intro k h1 h2
    rw [hvals, List.getElem?_append_right h1,
      List.getElem?_append_left (by simp [List.length_replicate]; omega),
      List.getElem?_replicate, if_pos (by omega)]
  have hv_prev : 1 ≤ pre.length → ∃ y, vals[pre.length - 1]? = some y ∧
      pre.getLast? = some y := by
    intro h1
    have hplen : pre.length - 1 < pre.length := by omega
    refine ⟨pre[pre.length - 1], ?_, ?_⟩
    · rw [hvals, List.getElem?_append_left hplen]
      simp [hplen]
    · rw [List.getLast?_eq_getElem?]
      simp [hplen]
  have hv_post : ∀ y, post.head? = some y →
      vals[pre.length + N]? = some y := by
    intro y hy
    rw [hvals, List.getElem?_append_right (by omega)]
    have heq : pre.length + N - pre.length = N := by omega
    rw [heq, List.getElem?_append_right (by simp [List.length_replicate])]
    have heq2 : N - (List.replicate N x).length = 0 := by simp
    rw [heq2, ← List.head?_eq_getElem?]
    exact hy
  have hvne : vals ≠ [] := by
    intro hh
    rw [hh] at hlen
    simp at hlen
    omega
  have hblen : (same_flags vals tol).length = vals.length :=
    same_flags_length _ _
  have hb_run : ∀ k, pre.length + 1 ≤ k → k ≤ pre.length + N - 1 →
      (same_flags vals tol)[k]? = some true := by
    intro k h1 h2
    obtain ⟨k2, rfl⟩ : ∃ k2, k = k2 + 1 := ⟨k - 1, by omega⟩
    have hu : vals[k2]? = some x := hv_run k2 (by omega) (by omega)
    have hw : vals[k2+1]? = some x := hv_run (k2+1) (by omega) (by omega)
    rw [same_flags_getElem?_succ vals tol k2 x x hu hw]
    simp [htol]
  have hb_a : (same_flags vals tol)[pre.length]? = some false := by
    rcases Nat.eq_zero_or_pos pre.length with h0 | h0
    · rw [h0]
      exact same_flags_getElem?_zero vals tol hvne
    · obtain ⟨y, hy1, hy2⟩ := hv_prev h0
      have hx0 : vals[pre.length]? = some x :=
        hv_run pre.length (by omega) (by omega)
      have heq : pre.length = (pre.length - 1) + 1 := by omega
      have hx0b : vals[(pre.length - 1) + 1]? = some x := by
        rw [← heq]
        exact hx0
      rw [heq, same_flags_getElem?_succ vals tol (pre.length - 1) y x hy1 hx0b]
      have hny := hpre y hy2
      simp [hny]
  have hb_post : pre.length + N < vals.length →
      (same_flags vals tol)[pre.length + N]? = some false := by
    intro hplt
    have hpost_ne : post ≠ [] := by
      intro hh
      rw [hh] at hlen
      simp at hlen
      omega
    obtain ⟨y, hy⟩ : ∃ y, post.head? = some y := by
      cases post with
      | nil => exact absurd rfl hpost_ne
      | cons z zs => exact ⟨z, rfl⟩
    have hyv : vals[pre.length + N]? = some y := hv_post y hy
    have hxv : vals[pre.length + N - 1]? = some x :=
      hv_run _ (by omega) (by omega)
    have heq : pre.length + N = (pre.length + N - 1) + 1 := by omega
    have hyv2 : vals[(pre.length + N - 1) + 1]? = some y := by
      rw [← heq]
      exact hyv
    rw [heq, same_flags_getElem?_succ vals tol (pre.length + N - 1) x y
      hxv hyv2]
    have hny := hpost y hy
    simp [hny]
  have hcount : ∀ k, k < vals.length →
      ∃ ck, (repeat_counts (same_flags vals tol))[k]? = some ck := by
    intro k hk
    have hlt : k < (repeat_counts (same_flags vals tol)).length := by
      rw [repeat_counts_length, hblen]
      omega
    exact ⟨(repeat_counts (same_flags vals tol))[k], by simp [hlt]⟩
  refine ⟨?_, ?_, ?_⟩
  · intro hmN
    refine ⟨?_, by omega⟩
    intro k h1 h2
    have hguard : ¬ vals.length < m := by omega
    have hbk := hb_run k h1 h2
    obtain ⟨ck, hck⟩ := hcount k (by omega)
    have hlow := repeat_counts_lower (same_flags vals tol) (pre.length + 1)
      (pre.length + N - 1) k h1 h2 (by rw [hblen]; omega) hb_run ck hck
    rw [detect_stuck_getElem? vals m tol k hguard true ck hbk hck]
    have hdec : ((m:ℤ) - 1 ≤ (ck:ℤ)) := by
      have : N - 1 ≤ ck := by omega
      omega
    simp [hdec]
  · intro hNm htol0
    subst htol0
    intro k h1 h2
    rcases Nat.lt_or_ge vals.length m with hguard | hguard
    · exact detect_stuck_short vals m 0 hguard k (by omega)
    · have hguard2 : ¬ vals.length < m := by omega
      rcases Nat.eq_or_lt_of_le h1 with heqk | hltk
      · subst heqk
        obtain ⟨ck, hck⟩ := hcount pre.length (by omega)
        rw [detect_stuck_getElem? vals m 0 pre.length hguard2 false ck
          hb_a hck]
        simp
      · have h1b : pre.length + 1 ≤ k := hltk
        have hbk := hb_run k h1b h2
        obtain ⟨ck, hck⟩ := hcount k (by omega)
        have hright : pre.length + N - 1 + 1 = (same_flags vals 0).length ∨
            (same_flags vals 0)[pre.length + N - 1 + 1]? = some false := by
          rcases Nat.eq_or_lt_of_le (show pre.length + N ≤ vals.length by
            omega) with hE | hL
          · left
            rw [hblen]
            omega
          · right
            have heq : pre.length + N - 1 + 1 = pre.length + N := by omega
            rw [heq]
            exact hb_post hL
        have hup := repeat_counts_upper (same_flags vals 0) (pre.length + 1)
          (pre.length + N - 1) k h1b h2 (by rw [hblen]; omega) hb_run
          (Or.inr (by simpa using hb_a)) hright ck hck
        rw [detect_stuck_getElem? vals m 0 k hguard2 true ck hbk hck]
        have hdec : ¬ ((m:ℤ) - 1 ≤ (ck:ℤ)) := by
          have : ck ≤ N - 1 := by omega
          omega
        simp [hdec]
  · intro vals2 i hg hi
    exact detect_stuck_short vals2 m tol hg i hi

/-- Witness for C7 (amended): the run [5, 5, 5, 5] with min_repeats 4 and
tolerance 0 has its second reading flagged. -/
theorem C7_witness :
    (detect_stuck_sensor (([] : List ℚ) ++ (List.replicate 4 (5:ℚ) ++ []))
      4 0)[1]? = some true :=
  ((C7_stuck_run_flags [] [] 5 4 4 0 (by omega) (by norm_num) (by omega)
      (fun y hy => by simp at hy) (fun y hy => by simp at hy)).1
    (by omega)).1 1 (by simp) (by simp)

/-! ## Heap model of DataFrame objects, for the no-mutation claim

Python passes DataFrames by reference and the checks assign columns with
`df[...] = ...`, which mutates the object in place; every check first
rebinds `df = df.copy()` (qc.py lines 93, 137, 191, 244, 313, 356, 401),
so the caller's object is never written.  To state this faithfully we model
a heap of DataFrame objects (column stores) addressed by references, where
column assignment mutates the heap, and re-express each check at that
level, reusing the pure flag computations for the written values. -/

/-- A pandas cell value: a numeric or boolean column entry. -/
inductive QVal where
  | num (q : ℚ)
  | bool (b : Bool)
deriving Repr, DecidableEq

/-- A DataFrame object as a column store: named columns of cell values. -/
structure PDataFrame where
  cols : List (String × List QVal)
deriving Repr, DecidableEq

/-- Column lookup `df[c]`. -/
def PDataFrame.getCol (d : PDataFrame) (c : String) : Option (List QVal) :=
  (d.cols.find? (fun p => p.1 == c)).map Prod.snd

/-- Python column assignment `df[c] = v`: overwrite the column if present,
else append it. -/
def PDataFrame.setCol (d : PDataFrame) (c : String) (v : List QVal) :
    PDataFrame :=
  if (d.cols.find? (fun p => p.1 == c)).isSome then
    ⟨d.cols.map (fun p => if p.1 == c then (c, v) else p)⟩
  else ⟨d.cols ++ [(c, v)]⟩

/-- The numeric entries of a column (reads of the value/time columns). -/
def PDataFrame.numColD (d : PDataFrame) (c : String) : List ℚ :=
  ((d.getCol c).getD []).filterMap (fun q =>
    match q with
    | QVal.num q => some q
    | QVal.bool _ => none)

/-- The boolean entries of a column (reads of the flag columns). -/
def PDataFrame.boolColD (d : PDataFrame) (c : String) : List Bool :=
  ((d.getCol c).getD []).filterMap (fun q =>
    match q with
    | QVal.bool b => some b
    | QVal.num _ => none)

/-- The heap of DataFrame objects; Python references are indices. -/
abbrev Heap := List PDataFrame

/-- Dereference (an out-of-range reference yields an empty frame; the
theorems only use in-range references). -/
def readDF (h : Heap) (r : ℕ) : PDataFrame := (h[r]?).getD ⟨[]⟩

/-- Models `df.copy()`: allocate a fresh object holding the same columns. -/
def allocCopy (h : Heap) (r : ℕ) : Heap × ℕ := (h ++ [readDF h r], h.length)

/-- Models `df[c] = v` on the object behind reference `r`: in-place update. -/
def writeCol (h : Heap) (r : ℕ) (c : String) (v : List QVal) : Heap :=
  h.set r ((readDF h r).setCol c v)

/-- Heap-level `detect_impossible_values`: copy, then write the flag column
on the copy only. -/
def detect_impossible_values_st (h : Heap) (df : ℕ)
    (variable_name value_col : String) : Heap × ℕ :=
  let p := allocCopy h df
  let vals := (readDF p.1 p.2).numColD value_col
  (writeCol p.1 p.2 "qc_impossible"
    ((impossible_flags vals variable_name).map QVal.bool), p.2)

/-- Heap-level `detect_extreme_values`; an unknown method reaches the
`KeyError` of qc.py line 160 after the copy, having written nothing. -/
def detect_extreme_values_st (h : Heap) (df : ℕ)
    (variable_name value_col method : String) : Heap × Except PyError ℕ :=
  let p := allocCopy h df
  let vals := (readDF p.1 p.2).numColD value_col
  if method = "range" then
    (writeCol p.1 p.2 "qc_extreme"
      ((extreme_range_flags vals variable_name).map QVal.bool), .ok p.2)
  else if method = "iqr" then
    (writeCol p.1 p.2 "qc_extreme" ((iqr_flags vals).map QVal.bool), .ok p.2)
  else (p.1, .error (.keyError "qc_extreme"))

/-- Heap-level `detect_stuck_sensor`: copy, initialise `qc_stuck` to all
false, return early on short series, else overwrite with the real flags. -/
def detect_stuck_sensor_st (h : Heap) (df : ℕ) (value_col : String)
    (min_repeats : ℕ) (tolerance : ℚ) : Heap × ℕ :=
  let p := allocCopy h df
  let vals := (readDF p.1 p.2).numColD value_col
  let h2 := writeCol p.1 p.2 "qc_stuck" (vals.map (fun _ => QVal.bool false))
  if vals.length < min_repeats then (h2, p.2)
  else
    (writeCol h2 p.2 "qc_stuck"
      ((detect_stuck_sensor vals min_repeats tolerance).map QVal.bool), p.2)

/-- Heap-level `detect_sudden_changes`: copy, initialise the flag column,
return early on short series, else convert the time column in place (on
the copy; `pd.to_datetime` is the identity on our rational hours) and
overwrite the flag column. -/
def detect_sudden_changes_st (h : Heap) (df : ℕ)
    (variable_name value_col time_col : String)
    (max_change_per_hour : Option ℚ) : Heap × ℕ :=
  let p := allocCopy h df
  let vals := (readDF p.1 p.2).numColD value_col
  let times := (readDF p.1 p.2).numColD time_col
  let h2 := writeCol p.1 p.2 "qc_sudden" (vals.map (fun _ => QVal.bool false))
  if vals.length < 2 then (h2, p.2)
  else
    let h3 := writeCol h2 p.2 time_col (times.map QVal.num)
    (writeCol h3 p.2 "qc_sudden"
      ((detect_sudden_changes (times.zip vals) variable_name
        max_change_per_hour).map QVal.bool), p.2)

/-- Heap-level `detect_consecutive_zeros`. -/
def detect_consecutive_zeros_st (h : Heap) (df : ℕ) (value_col : String)
    (min_zeros : ℕ) : Heap × ℕ :=
  let p := allocCopy h df
  let vals := (readDF p.1 p.2).numColD value_col
  let h2 := writeCol p.1 p.2 "qc_zeros" (vals.map (fun _ => QVal.bool false))
  if vals.length < min_zeros then (h2, p.2)
  else
    (writeCol h2 p.2 "qc_zeros"
      ((detect_consecutive_zeros vals min_zeros).map QVal.bool), p.2)

/-- NOR of the five flag columns (qc.py lines 453-459). -/
def norFlags (l1 l2 l3 l4 l5 : List Bool) : List Bool :=
  (List.zipWith (fun a b => a || b) l1
    (List.zipWith (fun a b => a || b) l2
      (List.zipWith (fun a b => a || b) l3
        (List.zipWith (fun a b => a || b) l4 l5)))).map (fun b => !b)

/-- Heap-level `apply_all_checks`: chain the five checks (each works on the
copy returned by the previous one) and write `qc_passed` on the final
frame.  The `range` method never fails, so its reference is unwrapped. -/
def apply_all_checks_st (h : Heap) (df : ℕ)
    (variable_name value_col time_col : String) : Heap × ℕ :=
  let p1 := detect_impossible_values_st h df variable_name value_col
  let p2 := detect_extreme_values_st p1.1 p1.2 variable_name value_col "range"
  let d2 := (p2.2.toOption).getD p1.2
  let p3 := detect_stuck_sensor_st p2.1 d2 value_col 4 (1/1000)
  let p4 := detect_sudden_changes_st p3.1 p3.2 variable_name value_col
    time_col none
  let p5 := detect_consecutive_zeros_st p4.1 p4.2 value_col 10
  let fr := readDF p5.1 p5.2
  (writeCol p5.1 p5.2 "qc_passed"
    ((norFlags (fr.boolColD "qc_impossible") (fr.boolColD "qc_extreme")
      (fr.boolColD "qc_stuck") (fr.boolColD "qc_sudden")
      (fr.boolColD "qc_zeros")).map QVal.bool), p5.2)

theorem readDF_append_lt (h : Heap) (d : PDataFrame) (r : ℕ)
    (hr : r < h.length) : readDF (h ++ [d]) r = readDF h r := by
  unfold readDF
  rw [List.getElem?_append_left hr]

theorem readDF_writeCol_ne (h : Heap) (s : ℕ) (c : String) (v : List QVal)
    (r : ℕ) (hne : s ≠ r) :
    readDF (writeCol h s c v) r = readDF h r := by
  unfold readDF writeCol
  rw [List.getElem?_set_ne hne]

theorem writeCol_length (h : Heap) (s : ℕ) (c : String) (v : List QVal) :
    (writeCol h s c v).length = h.length := by
  simp [writeCol]

theorem impossible_st_frame (h : Heap) (df : ℕ) (vn vc : String) :
    (detect_impossible_values_st h df vn vc).1.length = h.length + 1 ∧
    (detect_impossible_values_st h df vn vc).2 = h.length ∧
    ∀ q, q < h.length →
      readDF (detect_impossible_values_st h df vn vc).1 q = readDF h q := by
  refine ⟨?_, rfl, ?_⟩
  · simp [detect_impossible_values_st, allocCopy, writeCol_length]
  · intro q hq
    simp only [detect_impossible_values_st, allocCopy]
    rw [readDF_writeCol_ne _ _ _ _ _ (by omega)]
    exact readDF_append_lt h _ q hq

theorem extreme_st_frame (h : Heap) (df : ℕ) (vn vc method : String) :
    (detect_extreme_values_st h df vn vc method).1.length = h.length + 1 ∧
    ∀ q, q < h.length →
      readDF (detect_extreme_values_st h df vn vc method).1 q =
        readDF h q := by
  constructor
  · simp only [detect_extreme_values_st, allocCopy]
    split_ifs <;> simp [writeCol_length]
  · intro q hq
    simp only [detect_extreme_values_st, allocCopy]
    split_ifs <;>
      first
        | (rw [readDF_writeCol_ne _ _ _ _ _ (by omega)]
           exact readDF_append_lt h _ q hq)
        | exact readDF_append_lt h _ q hq

theorem extreme_st_range_ref (h : Heap) (df : ℕ) (vn vc : String) :
    (detect_extreme_values_st h df vn vc "range").2 =
      Except.ok h.length := by
  simp [detect_extreme_values_st, allocCopy]

theorem stuck_st_frame (h : Heap) (df : ℕ) (vc : String) (m : ℕ) (tol : ℚ) :
    (detect_stuck_sensor_st h df vc m tol).1.length = h.length + 1 ∧
    (detect_stuck_sensor_st h df vc m tol).2 = h.length ∧
    ∀ q, q < h.length →
      readDF (detect_stuck_sensor_st h df vc m tol).1 q = readDF h q := by
  refine ⟨?_, ?_, ?_⟩
  · simp only [detect_stuck_sensor_st, allocCopy]
    split_ifs <;> simp [writeCol_length]
  · simp only [detect_stuck_sensor_st, allocCopy]
    split_ifs <;> rfl
  · intro q hq
    simp only [detect_stuck_sensor_st, allocCopy]
    split_ifs <;>
      first
        | (rw [readDF_writeCol_ne _ _ _ _ _ (by omega),
             readDF_writeCol_ne _ _ _ _ _ (by omega)]
           exact readDF_append_lt h _ q hq)
        | (rw [readDF_writeCol_ne _ _ _ _ _ (by omega)]
           exact readDF_append_lt h _ q hq)

theorem sudden_st_frame (h : Heap) (df : ℕ) (vn vc tc : String)
    (mc : Option ℚ) :
    (detect_sudden_changes_st h df vn vc tc mc).1.length = h.length + 1 ∧
    (detect_sudden_changes_st h df vn vc tc mc).2 = h.length ∧
    ∀ q, q < h.length →
      readDF (detect_sudden_changes_st h df vn vc tc mc).1 q =
        readDF h q := by
  refine ⟨?_, ?_, ?_⟩
  · simp only [detect_sudden_changes_st, allocCopy]
    split_ifs <;> simp [writeCol_length]
  · simp only [detect_sudden_changes_st, allocCopy]
    split_ifs <;> rfl
  · intro q hq
    simp only [detect_sudden_changes_st, allocCopy]
    split_ifs <;>
      first
        | (rw [readDF_writeCol_ne _ _ _ _ _ (by omega),
             readDF_writeCol_ne _ _ _ _ _ (by omega),
             readDF_writeCol_ne _ _ _ _ _ (by omega)]
           exact readDF_append_lt h _ q hq)
        | (rw [readDF_writeCol_ne _ _ _ _ _ (by omega)]
           exact readDF_append_lt h _ q hq)

theorem zeros_st_frame (h : Heap) (df : ℕ) (vc : String) (mz : ℕ) :
    (detect_consecutive_zeros_st h df vc mz).1.length = h.length + 1 ∧
    (detect_consecutive_zeros_st h df vc mz).2 = h.length ∧
    ∀ q, q < h.length →
      readDF (detect_consecutive_zeros_st h df vc mz).1 q = readDF h q := by
  refine ⟨?_, ?_, ?_⟩
  · simp only [detect_consecutive_zeros_st, allocCopy]
    split_ifs <;> simp [writeCol_length]
  · simp only [detect_consecutive_zeros_st, allocCopy]
    split_ifs <;> rfl
  · intro q hq
    simp only [detect_consecutive_zeros_st, allocCopy]
    split_ifs <;>
      first
        | (rw [readDF_writeCol_ne _ _ _ _ _ (by omega),
             readDF_writeCol_ne _ _ _ _ _ (by omega)]
           exact readDF_append_lt h _ q hq)
        | (rw [readDF_writeCol_ne _ _ _ _ _ (by omega)]
           exact readDF_append_lt h _ q hq)

theorem apply_st_frame (h : Heap) (df : ℕ) (vn vc tc : String) :
    ∀ q, q < h.length →
      readDF (apply_all_checks_st h df vn vc tc).1 q = readDF h q := by
  intro q hq
  simp only [apply_all_checks_st]
  obtain ⟨L1, R1, P1⟩ := impossible_st_frame h df vn vc
  generalize hp1 : detect_impossible_values_st h df vn vc = p1 at *
  obtain ⟨L2, P2⟩ := extreme_st_frame p1.1 p1.2 vn vc "range"
  have Rx : (detect_extreme_values_st p1.1 p1.2 vn vc "range").2 =
      Except.ok p1.1.length := extreme_st_range_ref p1.1 p1.2 vn vc
  generalize hp2 : detect_extreme_values_st p1.1 p1.2 vn vc "range" = p2 at *
  have hd2 : (p2.2.toOption).getD p1.2 = p1.1.length := by rw [Rx]; rfl
  rw [hd2]
  obtain ⟨L3, R3, P3⟩ := stuck_st_frame p2.1 p1.1.length vc 4 (1/1000)
  generalize hp3 :
    detect_stuck_sensor_st p2.1 p1.1.length vc 4 (1/1000) = p3 at *
  obtain ⟨L4, R4, P4⟩ := sudden_st_frame p3.1 p3.2 vn vc tc none
  generalize hp4 :
    detect_sudden_changes_st p3.1 p3.2 vn vc tc none = p4 at *
  obtain ⟨L5, R5, P5⟩ := zeros_st_frame p4.1 p4.2 vc 10
  generalize hp5 : detect_consecutive_zeros_st p4.1 p4.2 vc 10 = p5 at *
  rw [readDF_writeCol_ne _ _ _ _ _ (by omega)]
  rw [P5 q (by omega)]
  rw [P4 q (by omega)]
  rw [P3 q (by omega)]
  rw [P2 q (by omega)]
  exact P1 q hq

/-! ## C10 -/

/-- C10: no QC check and no combinator mutates the caller's DataFrame: for
every heap and every in-range reference, after running any of the six
heap-level checks the object behind the caller's reference is unchanged
(each check writes only the fresh copy it allocates). -/
theorem C10_no_mutation (h : Heap) (r : ℕ) (hr : r < h.length)
    (vn vc tc method : String) (m mz : ℕ) (tol : ℚ) (mc : Option ℚ) :
    readDF (detect_impossible_values_st h r vn vc).1 r = readDF h r ∧
    readDF (detect_extreme_values_st h r vn vc method).1 r = readDF h r ∧
    readDF (detect_stuck_sensor_st h r vc m tol).1 r = readDF h r ∧
    readDF (detect_sudden_changes_st h r vn vc tc mc).1 r = readDF h r ∧
    readDF (detect_consecutive_zeros_st h r vc mz).1 r = readDF h r ∧
    readDF (apply_all_checks_st h r vn vc tc).1 r = readDF h r :=
  ⟨(impossible_st_frame h r vn vc).2.2 r hr,
   (extreme_st_frame h r vn vc method).2 r hr,
   (stuck_st_frame h r vc m tol).2.2 r hr,
   (sudden_st_frame h r vn vc tc mc).2.2 r hr,
   (zeros_st_frame h r vc mz).2.2 r hr,
   apply_st_frame h r vn vc tc r hr⟩

/-- Concrete one-frame heap used by the C10 witness. -/
def H0 : Heap := [⟨[("tiempo", [QVal.num 0, QVal.num 1]),
  ("valor", [QVal.num 1, QVal.num 2])]⟩]

/-- Witness for C10 on a concrete two-reading frame. -/
theorem C10_witness :
    0 < H0.length ∧
    (readDF (detect_impossible_values_st H0 0 "temperatura" "valor").1 0 =
        readDF H0 0 ∧
     readDF (detect_extreme_values_st H0 0 "temperatura" "valor"
        "range").1 0 = readDF H0 0 ∧
     readDF (detect_stuck_sensor_st H0 0 "valor" 4 (1/1000)).1 0 =
        readDF H0 0 ∧
     readDF (detect_sudden_changes_st H0 0 "temperatura" "valor" "tiempo"
        none).1 0 = readDF H0 0 ∧
     readDF (detect_consecutive_zeros_st H0 0 "valor" 10).1 0 =
        readDF H0 0 ∧
     readDF (apply_all_checks_st H0 0 "temperatura" "valor" "tiempo").1 0 =
        readDF H0 0) :=
  ⟨by decide,
    C10_no_mutation H0 0 (by decide) "temperatura" "valor" "tiempo" "range"
      4 10 (1/1000) none⟩
